import Mathlib

/-!
Verification of the log-processor IP scanner (`app.py`).

The Python source is shallowly embedded: strings are `List Char`, the
per-scan mutable state of `IPProcessor` becomes explicit state passing,
and the MongoDB store is a pair of key-unique collections modelled as
lists without duplicate keys.  A store call that raises (caught by the
`except Exception` in `store_ip_in_mongodb`) is modelled by an oracle
`err : List Char → Bool` telling which addresses' store calls fail;
the code catches the exception and returns `False`, so the model
returns `false` and leaves the store unchanged.
-/

namespace LogProcessor

/-- Word character for Python's `\b` word boundary (modelled for ASCII:
letters, digits, underscore). -/
def isWordChar (c : Char) : Bool := c.isAlphanum || c == '_'

/-- Maximal leading run of ASCII digits, and the rest of the input. -/
def takeDigits : List Char → List Char × List Char
  | [] => ([], [])
  | c :: rest =>
    if c.isDigit then
      let p := takeDigits rest
      (c :: p.1, p.2)
    else ([], c :: rest)

/-- One `[0-9]{1,3}\.` group of the regex `\b(?:[0-9]{1,3}\.){3}[0-9]{1,3}\b`.
Because each digit group is followed by a mandatory literal dot, the
backtracking engine can only accept the maximal digit run (a shorter take
leaves a digit, not a dot, as the next character), so the match is
deterministic: the maximal run must have length 1..3 and be followed by `.`. -/
def matchOctetDot (cs : List Char) : Option (List Char × List Char) :=
  let p := takeDigits cs
  if 1 ≤ p.1.length ∧ p.1.length ≤ 3 then
    match p.2 with
    | '.' :: r2 => some (p.1 ++ ['.'], r2)
    | _ => none
  else none

/-- The final `[0-9]{1,3}\b` group: the maximal digit run must have length
1..3 (taking fewer digits leaves a digit after it, so `\b` would fail
anyway) and the following character, if any, must not be a word character. -/
def matchFinalOctet (cs : List Char) : Option (List Char × List Char) :=
  let p := takeDigits cs
  if 1 ≤ p.1.length ∧ p.1.length ≤ 3 then
    match p.2 with
    | [] => some (p.1, [])
    | c :: _ => if isWordChar c then none else some (p.1, p.2)
  else none

/-- Attempt to match the whole IP regex at the current position.
`prevW` says whether the character before the current position is a word
character; the pattern starts with a digit, so the leading `\b` holds iff
`prevW = false`. -/
def tryMatch (prevW : Bool) (cs : List Char) : Option (List Char × List Char) :=
  if prevW then none
  else
    match matchOctetDot cs with
    | none => none
    | some (g1, r1) =>
      match matchOctetDot r1 with
      | none => none
      | some (g2, r2) =>
        match matchOctetDot r2 with
        | none => none
        | some (g3, r3) =>
          match matchFinalOctet r3 with
          | none => none
          | some (g4, r4) => some (g1 ++ g2 ++ g3 ++ g4, r4)

/-- `re.findall` scan: try to match at each position; on success record the
match and resume after it (the last matched character is a digit, hence a
word character), otherwise advance one character.  Fuel-indexed; the fuel
is initialised to the length of the input, which suffices because every
step consumes at least one character. -/
def scanIpsAux : Nat → Bool → List Char → List (List Char)
  | 0, _, _ => []
  | _ + 1, _, [] => []
  | fuel + 1, prevW, c :: rest =>
    match tryMatch prevW (c :: rest) with
    | some (m, rest2) => m :: scanIpsAux fuel true rest2
    | none => scanIpsAux fuel (isWordChar c) rest

/-- `self.ip_pattern.findall(line)`: all syntactic IPv4-shaped candidates. -/
def findIpCandidates (cs : List Char) : List (List Char) :=
  scanIpsAux cs.length false cs

/-- Python `str.split('.')` on a single separator character. -/
def splitOnChar (sep : Char) : List Char → List (List Char)
  | [] => [[]]
  | c :: rest =>
    let r := splitOnChar sep rest
    if c == sep then [] :: r
    else
      match r with
      | [] => [[c]]
      | p :: ps => (c :: p) :: ps

/-- Decimal value of a digit string. -/
def octetValue (cs : List Char) : Nat :=
  cs.foldl (fun acc c => acc * 10 + (c.toNat - '0'.toNat)) 0

/-- `ipaddress._parse_octet`: 1..3 ASCII digits, no leading zero unless the
octet is exactly "0", value at most 255; anything else raises
`AddressValueError`, modelled as `none`. -/
def parseOctet (p : List Char) : Option Nat :=
  if p.isEmpty then none
  else if ¬ p.all Char.isDigit then none
  else if p.length > 3 then none
  else if p.length > 1 ∧ p.head? = some '0' then none
  else if octetValue p ≤ 255 then some (octetValue p) else none

/-- `ipaddress.IPv4Address(s)`: split on `.`, require exactly 4 octets,
parse each; a parse failure raises `AddressValueError`, modelled as `none`. -/
def parseIPv4 (cs : List Char) : Option (Nat × Nat × Nat × Nat) :=
  match splitOnChar '.' cs with
  | [p1, p2, p3, p4] =>
    match parseOctet p1, parseOctet p2, parseOctet p3, parseOctet p4 with
    | some a, some b, some c, some d => some (a, b, c, d)
    | _, _, _, _ => none
  | _ => none

/-- `IPProcessor.is_valid_ip`. -/
def is_valid_ip (cs : List Char) : Bool := (parseIPv4 cs).isSome

/-- `IPProcessor.extract_ips_from_line`: regex candidates filtered by
`is_valid_ip`. -/
def extract_ips_from_line (line : List Char) : List (List Char) :=
  (findIpCandidates line).filter is_valid_ip

/-- 32-bit integer value of a parsed dotted quad. -/
def toAddr32 (q : Nat × Nat × Nat × Nat) : Nat :=
  ((q.1 * 256 + q.2.1) * 256 + q.2.2.1) * 256 + q.2.2.2

/-- `ip in network` for an `IPv4Network` with network integer `net` and
prefix length `plen`: the address agrees with the network address on the
top `plen` bits. -/
def inNetwork (addr net plen : Nat) : Bool :=
  addr / 2 ^ (32 - plen) == net / 2 ^ (32 - plen)

/-- `IPProcessor.private_ranges`: 10.0.0.0/8, 172.16.0.0/12,
192.168.0.0/16, as (network integer, prefix length) pairs. -/
def private_ranges : List (Nat × Nat) :=
  [(10 * 2 ^ 24, 8), (172 * 2 ^ 24 + 16 * 2 ^ 16, 12), (192 * 2 ^ 24 + 168 * 2 ^ 16, 16)]

/-- `IPProcessor.is_private_ip`: parse, then test membership in each
private range; an invalid address returns `False` (the
`AddressValueError` branch). -/
def is_private_ip (cs : List Char) : Bool :=
  match parseIPv4 cs with
  | none => false
  | some q => private_ranges.any fun r => inNetwork (toAddr32 q) r.1 r.2

/-- `Classification`: the two-valued outcome of classifying a valid address. -/
inductive Classification
  | Private
  | Public
deriving DecidableEq, Repr

/-- The classification the scan loop computes:
`is_private = self.is_private_ip(ip)` selects the private or public path. -/
def classify (cs : List Char) : Classification :=
  if is_private_ip cs then Classification.Private else Classification.Public

/-- Python `str.strip()`: drop leading and trailing whitespace. -/
def pyStrip (cs : List Char) : List Char :=
  ((cs.dropWhile Char.isWhitespace).reverse.dropWhile Char.isWhitespace).reverse

/-- The MongoDB store: the two collections `public_ips` and `private_ips`,
each key-unique on the `ip` field, modelled by their lists of stored keys. -/
structure Store where
  public_ips : List (List Char)
  private_ips : List (List Char)
deriving DecidableEq, Repr

/-- The upsert `update_one({"ip": ip}, {"$setOnInsert": doc}, upsert=True)`:
insert-if-absent keyed on `ip`; returns `true` exactly when the call
inserted (nonempty `upserted_id`). -/
def upsertIfAbsent (st : Store) (ip : List Char) (is_priv : Bool) : Bool × Store :=
  if is_priv then
    if ip ∈ st.private_ips then (false, st)
    else (true, { st with private_ips := ip :: st.private_ips })
  else
    if ip ∈ st.public_ips then (false, st)
    else (true, { st with public_ips := ip :: st.public_ips })

/-- `IPProcessor.store_ip_in_mongodb`: if the store call raises (oracle
`err`), the `except Exception` branch logs and returns `False`, leaving the
store unchanged; otherwise the upsert runs. -/
def store_ip_in_mongodb (err : List Char → Bool) (st : Store) (ip : List Char)
    (is_priv : Bool) : Bool × Store :=
  if err ip then (false, st) else upsertIfAbsent st ip is_priv

/-- `IPProcessor.stats`, initialised to all zeroes in `__init__`. -/
structure ScanStats where
  total_lines_processed : Nat := 0
  total_ips_found : Nat := 0
  unique_public_ips_stored : Nat := 0
  unique_private_ips_stored : Nat := 0
  duplicate_ips_skipped : Nat := 0
  within_file_duplicates : Nat := 0
deriving DecidableEq, Repr

/-- In-scan state: the stats dict, the local `processed_ips` set of
`process_log_file` (modelled as a list used only through membership), and
the store. -/
structure ScanState where
  stats : ScanStats
  processed_ips : List (List Char)
  store : Store
deriving DecidableEq, Repr

/-- Observable events of the scan loop: `storeCall ip` is emitted exactly
when `store_ip_in_mongodb` is called for `ip`; `dupSkip ip` exactly when
`within_file_duplicates` is incremented on account of `ip`. -/
inductive ScanEvent
  | storeCall (ip : List Char)
  | dupSkip (ip : List Char)
deriving DecidableEq, Repr

/-- The body of `for ip in ips_in_line` in `process_log_file`. -/
def processIp (err : List Char → Bool) (s : ScanState) (ip : List Char) :
    ScanState × List ScanEvent :=
  let s1 : ScanState :=
    { s with stats := { s.stats with total_ips_found := s.stats.total_ips_found + 1 } }
  if ip ∈ s1.processed_ips then
    ({ s1 with stats :=
        { s1.stats with within_file_duplicates := s1.stats.within_file_duplicates + 1 } },
      [ScanEvent.dupSkip ip])
  else
    let s2 : ScanState := { s1 with processed_ips := ip :: s1.processed_ips }
    let ipriv := is_private_ip ip
    let call := store_ip_in_mongodb err s2.store ip ipriv
    let stats2 :=
      if call.1 then
        if ipriv then
          { s2.stats with
            unique_private_ips_stored := s2.stats.unique_private_ips_stored + 1 }
        else
          { s2.stats with
            unique_public_ips_stored := s2.stats.unique_public_ips_stored + 1 }
      else
        { s2.stats with duplicate_ips_skipped := s2.stats.duplicate_ips_skipped + 1 }
    ({ s2 with stats := stats2, store := call.2 }, [ScanEvent.storeCall ip])

/-- The `for ip in ips_in_line` loop over a list of extracted addresses. -/
def processIps (err : List Char → Bool) : ScanState → List (List Char) →
    ScanState × List ScanEvent
  | s, [] => (s, [])
  | s, ip :: rest =>
    let r1 := processIp err s ip
    let r2 := processIps err r1.1 rest
    (r2.1, r1.2 ++ r2.2)

/-- One iteration of `for line_num, line in enumerate(file, 1)`:
increment `total_lines_processed`, extract from the stripped line,
process each address. -/
def processLine (err : List Char → Bool) (s : ScanState) (line : List Char) :
    ScanState × List ScanEvent :=
  let s1 : ScanState :=
    { s with stats :=
        { s.stats with total_lines_processed := s.stats.total_lines_processed + 1 } }
  processIps err s1 (extract_ips_from_line (pyStrip line))

/-- The whole line loop of `process_log_file`, over the file's lines. -/
def processFile (err : List Char → Bool) : ScanState → List (List Char) →
    ScanState × List ScanEvent
  | s, [] => (s, [])
  | s, line :: rest =>
    let r1 := processLine err s line
    let r2 := processFile err r1.1 rest
    (r2.1, r1.2 ++ r2.2)

/-- Scan state at the start of `process_log_file`: zeroed stats (fresh
`IPProcessor`), an empty local `processed_ips` set, and whatever the store
already holds. -/
def initState (store : Store) : ScanState :=
  { stats := {}, processed_ips := [], store := store }

/-- The flat stream of valid addresses a scan of these lines extracts, in
processing order. -/
def allIps (lines : List (List Char)) : List (List Char) :=
  (lines.map fun l => extract_ips_from_line (pyStrip l)).flatten

/-- `IPProcessor.process_log_file` as called by `main`: returns `False`
without scanning when the file is missing; on a mid-scan exception after
`k` lines (`failAfter = some k`) the `except Exception` branch returns
`False`, keeping the stats accumulated so far on `self`; otherwise the
scan completes and returns `True`. -/
def process_log_file_run (err : List Char → Bool) (s : ScanState) (fileExists : Bool)
    (lines : List (List Char)) (failAfter : Option Nat) : Bool × ScanState :=
  if fileExists then
    match failAfter with
    | none => (true, (processFile err s lines).1)
    | some k => (false, (processFile err s (lines.take k)).1)
  else (false, s)

/-- Observable outcome of one run of `main`. -/
structure RunOutcome where
  exitCode : Nat
  statsReported : Bool
  reportedUniqueIps : Option Nat
  finalStats : ScanStats
  connectionClosed : Bool
deriving DecidableEq, Repr

/-- The value `print_statistics` logs as "Unique IPs from file": the
attribute `self.processed_ips` read via `getattr(self, 'processed_ips',
set())`.  `process_log_file` only ever uses a local variable of that name,
so the attribute is never assigned and stays absent. -/
def uniqueIpsFromFileReport (attr : Option (List (List Char))) : Nat :=
  match attr with
  | none => 0
  | some l => l.dedup.length

/-- `main`: connect (exit 1 on failure), run `process_log_file`; on
`True` print statistics and fall through to exit 0; on `False` log and
exit 1.  The `finally` block always closes the connection.
`attrProcessedIps` is the `self.processed_ips` attribute, `none` after
`__init__` and never written afterwards. -/
def mainRun (connectOk : Bool) (err : List Char → Bool) (store : Store)
    (fileExists : Bool) (lines : List (List Char)) (failAfter : Option Nat)
    (attrProcessedIps : Option (List (List Char))) : RunOutcome :=
  if connectOk then
    let r := process_log_file_run err (initState store) fileExists lines failAfter
    if r.1 then
      { exitCode := 0, statsReported := true,
        reportedUniqueIps := some (uniqueIpsFromFileReport attrProcessedIps),
        finalStats := r.2.stats, connectionClosed := true }
    else
      { exitCode := 1, statsReported := false, reportedUniqueIps := none,
        finalStats := r.2.stats, connectionClosed := true }
  else
    { exitCode := 1, statsReported := false, reportedUniqueIps := none,
      finalStats := {}, connectionClosed := true }

/-- `self.processed_ips` right after `__init__`: the attribute does not
exist (no assignment anywhere in the class gives `self` that attribute). -/
def initAttrProcessedIps : Option (List (List Char)) := none

/-- The collection keyed by a classification flag. -/
def collOf (st : Store) (is_priv : Bool) : List (List Char) :=
  if is_priv then st.private_ips else st.public_ips

/-- Spec-side format predicate, from the spec's words: "a string matching
4 dot-separated integers each in [0,255]" — one octet of it. -/
def validOctetB (p : List Char) : Bool :=
  !p.isEmpty && p.all Char.isDigit && decide (octetValue p ≤ 255)

/-- Spec-side format predicate, from the spec's words: the string consists
of exactly 4 dot-separated integers, each in [0,255]. -/
def validQuadB (cs : List Char) : Bool :=
  match splitOnChar '.' cs with
  | [p1, p2, p3, p4] => validOctetB p1 && validOctetB p2 && validOctetB p3 && validOctetB p4
  | _ => false

/-- Spec-side range predicate, from the spec's words: the address lies in
10.0.0.0/8, 172.16.0.0/12 or 192.168.0.0/16, characterised octet-wise. -/
def inPrivateRangesSpec (q : Nat × Nat × Nat × Nat) : Prop :=
  q.1 = 10 ∨ (q.1 = 172 ∧ 16 ≤ q.2.1 ∧ q.2.1 ≤ 31) ∨ (q.1 = 192 ∧ q.2.1 = 168)

lemma parseOctet_sound (p : List Char) (v : Nat) (h : parseOctet p = some v) :
    p.isEmpty = false ∧ p.all Char.isDigit = true ∧ octetValue p ≤ 255 ∧ v = octetValue p := by
  unfold parseOctet at h
  split_ifs at h with h1 h2 h3 h4 h5
  all_goals simp_all

lemma parseIPv4_sound (cs : List Char) (a b c d : Nat)
    (h : parseIPv4 cs = some (a, b, c, d)) :
    ∃ p1 p2 p3 p4, splitOnChar '.' cs = [p1, p2, p3, p4] ∧
      parseOctet p1 = some a ∧ parseOctet p2 = some b ∧
      parseOctet p3 = some c ∧ parseOctet p4 = some d := by
  unfold parseIPv4 at h
  split at h
  next p1 p2 p3 p4 heq =>
    split at h
    next a' b' c' d' h1 h2 h3 h4 =>
      refine ⟨p1, p2, p3, p4, heq, ?_, ?_, ?_, ?_⟩ <;> simp_all
    next => cases h
  next => cases h

lemma parseIPv4_le (cs : List Char) (a b c d : Nat)
    (h : parseIPv4 cs = some (a, b, c, d)) :
    a ≤ 255 ∧ b ≤ 255 ∧ c ≤ 255 ∧ d ≤ 255 := by
  obtain ⟨p1, p2, p3, p4, _, h1, h2, h3, h4⟩ := parseIPv4_sound cs a b c d h
  obtain ⟨_, _, hv1, he1⟩ := parseOctet_sound p1 a h1
  obtain ⟨_, _, hv2, he2⟩ := parseOctet_sound p2 b h2
  obtain ⟨_, _, hv3, he3⟩ := parseOctet_sound p3 c h3
  obtain ⟨_, _, hv4, he4⟩ := parseOctet_sound p4 d h4
  omega

lemma is_private_ip_iff (cs : List Char) (a b c d : Nat)
    (h : parseIPv4 cs = some (a, b, c, d)) :
    (is_private_ip cs = true ↔ inPrivateRangesSpec (a, b, c, d)) := by
  obtain ⟨ha, hb, hc, hd⟩ := parseIPv4_le cs a b c d h
  unfold is_private_ip
  rw [h]
  simp only [private_ranges, inPrivateRangesSpec, inNetwork, toAddr32, List.any_cons,
    List.any_nil, Bool.or_eq_true, beq_iff_eq, Bool.or_false]
  norm_num
  omega

/-- Claim C9: `is_private_ip` is total over arbitrary strings; for any
string that is not a valid IPv4 address (the `AddressValueError` branch of
the embedded parser) it returns `False` rather than failing.  Totality is
the type `List Char → Bool` of the embedding itself. -/
theorem is_private_ip_total_invalid (cs : List Char) (h : parseIPv4 cs = none) :
    is_private_ip cs = false := by
  unfold is_private_ip
  rw [h]

theorem is_private_ip_total_invalid_witness :
    parseIPv4 "hello".data = none ∧ is_private_ip "hello".data = false :=
  ⟨by decide, is_private_ip_total_invalid "hello".data (by decide)⟩

/-- Claim C4: every address returned by `extract_ips_from_line` is a
string of exactly 4 dot-separated integers each in [0,255]
(`validQuadB`); contrapositively, any syntactic candidate with an octet
greater than 255 fails `validQuadB` and so never appears in the returned
sequence. -/
theorem extraction_sound (line cs : List Char)
    (h : cs ∈ extract_ips_from_line line) : validQuadB cs = true := by
  unfold extract_ips_from_line at h
  rw [List.mem_filter] at h
  have hval : is_valid_ip cs = true := h.2
  unfold is_valid_ip at hval
  rw [Option.isSome_iff_exists] at hval
  obtain ⟨⟨a, b, c, d⟩, hq⟩ := hval
  obtain ⟨p1, p2, p3, p4, hsplit, h1, h2, h3, h4⟩ := parseIPv4_sound cs a b c d hq
  obtain ⟨he1, hd1, hv1, _⟩ := parseOctet_sound p1 a h1
  obtain ⟨he2, hd2, hv2, _⟩ := parseOctet_sound p2 b h2
  obtain ⟨he3, hd3, hv3, _⟩ := parseOctet_sound p3 c h3
  obtain ⟨he4, hd4, hv4, _⟩ := parseOctet_sound p4 d h4
  unfold validQuadB
  rw [hsplit]
  simp [validOctetB, he1, he2, he3, he4, hd1, hd2, hd3, hd4, hv1, hv2, hv3, hv4]

theorem extraction_sound_witness :
    "8.8.8.8".data ∈ extract_ips_from_line "x 999.1.1.1 y 8.8.8.8".data ∧
      validQuadB "8.8.8.8".data = true :=
  ⟨by decide, extraction_sound "x 999.1.1.1 y 8.8.8.8".data "8.8.8.8".data (by decide)⟩

/-- Claim C3: for every valid IPv4 address, classification returns exactly
one of Private/Public, and returns Private iff the address lies in
10.0.0.0/8, 172.16.0.0/12 or 192.168.0.0/16. -/
theorem classify_exhaustive_and_private_iff (cs : List Char) (a b c d : Nat)
    (h : parseIPv4 cs = some (a, b, c, d)) :
    ((classify cs = Classification.Private ∧ classify cs ≠ Classification.Public) ∨
      (classify cs = Classification.Public ∧ classify cs ≠ Classification.Private)) ∧
    (classify cs = Classification.Private ↔ inPrivateRangesSpec (a, b, c, d)) := by
  have hiff := is_private_ip_iff cs a b c d h
  unfold classify
  by_cases hp : is_private_ip cs = true <;> simp [hp] at hiff ⊢ <;> tauto

theorem classify_exhaustive_and_private_iff_witness :
    parseIPv4 "10.1.2.3".data = some (10, 1, 2, 3) ∧
      (((classify "10.1.2.3".data = Classification.Private ∧
          classify "10.1.2.3".data ≠ Classification.Public) ∨
        (classify "10.1.2.3".data = Classification.Public ∧
          classify "10.1.2.3".data ≠ Classification.Private)) ∧
      (classify "10.1.2.3".data = Classification.Private ↔
        inPrivateRangesSpec (10, 1, 2, 3))) :=
  ⟨by decide, classify_exhaustive_and_private_iff "10.1.2.3".data 10 1 2 3 (by decide)⟩

/-- Claim C7: the insert-if-absent upsert is idempotent: starting from a
store where the address is absent from the classification's collection,
the first call returns `True` (Inserted), the second returns `False`
(AlreadyExists) and leaves the store unchanged, and exactly one record for
the address is stored in that collection. -/
theorem insertIfAbsent_idempotent (st : Store) (ip : List Char) (is_priv : Bool)
    (h : ip ∉ collOf st is_priv) :
    (upsertIfAbsent st ip is_priv).1 = true ∧
    (upsertIfAbsent (upsertIfAbsent st ip is_priv).2 ip is_priv).1 = false ∧
    (upsertIfAbsent (upsertIfAbsent st ip is_priv).2 ip is_priv).2 =
      (upsertIfAbsent st ip is_priv).2 ∧
    (collOf (upsertIfAbsent (upsertIfAbsent st ip is_priv).2 ip is_priv).2 is_priv).count ip
      = 1 := by
  cases is_priv <;>
    simp only [collOf, Bool.false_eq_true, if_false, if_true] at h ⊢ <;>
    simp [upsertIfAbsent, h, List.count_cons_self, List.count_eq_zero.mpr h]

theorem insertIfAbsent_idempotent_witness :
    "1.2.3.4".data ∉ collOf { public_ips := [], private_ips := [] } false ∧
    ((upsertIfAbsent { public_ips := [], private_ips := [] } "1.2.3.4".data false).1 = true ∧
      (upsertIfAbsent
        (upsertIfAbsent { public_ips := [], private_ips := [] } "1.2.3.4".data false).2
        "1.2.3.4".data false).1 = false ∧
      (upsertIfAbsent
        (upsertIfAbsent { public_ips := [], private_ips := [] } "1.2.3.4".data false).2
        "1.2.3.4".data false).2 =
        (upsertIfAbsent { public_ips := [], private_ips := [] } "1.2.3.4".data false).2 ∧
      (collOf (upsertIfAbsent
        (upsertIfAbsent { public_ips := [], private_ips := [] } "1.2.3.4".data false).2
        "1.2.3.4".data false).2 false).count "1.2.3.4".data = 1) :=
  ⟨by decide,
    insertIfAbsent_idempotent { public_ips := [], private_ips := [] } "1.2.3.4".data false
      (by decide)⟩

/-- The statistics balance maintained by the scan loop: every counted
address occurrence lands in exactly one of the four buckets. -/
def balanced (st : ScanStats) : Prop :=
  st.unique_public_ips_stored + st.unique_private_ips_stored + st.duplicate_ips_skipped
    + st.within_file_duplicates = st.total_ips_found

lemma processIp_balance (err : List Char → Bool) (s : ScanState) (ip : List Char) :
    (processIp err s ip).1.stats.unique_public_ips_stored
        + (processIp err s ip).1.stats.unique_private_ips_stored
        + (processIp err s ip).1.stats.duplicate_ips_skipped
        + (processIp err s ip).1.stats.within_file_duplicates
      = s.stats.unique_public_ips_stored + s.stats.unique_private_ips_stored
          + s.stats.duplicate_ips_skipped + s.stats.within_file_duplicates + 1 ∧
    (processIp err s ip).1.stats.total_ips_found = s.stats.total_ips_found + 1 := by
  unfold processIp
  by_cases hmem : ip ∈ s.processed_ips
  · simp [hmem]
    omega
  · simp only [hmem]
    simp only [if_false, Bool.false_eq_true, ite_false, if_neg, reduceIte]
    split_ifs <;> simp <;> omega

lemma processIp_balanced (err : List Char → Bool) (s : ScanState) (ip : List Char)
    (h : balanced s.stats) : balanced (processIp err s ip).1.stats := by
  have hb := processIp_balance err s ip
  unfold balanced at *
  omega

lemma processIps_balanced (err : List Char → Bool) :
    ∀ (ips : List (List Char)) (s : ScanState), balanced s.stats →
      balanced (processIps err s ips).1.stats
  | [], s, h => h
  | ip :: rest, s, h => by
    simp only [processIps]
    exact processIps_balanced err rest _ (processIp_balanced err s ip h)

lemma processLine_balanced (err : List Char → Bool) (s : ScanState) (line : List Char)
    (h : balanced s.stats) : balanced (processLine err s line).1.stats := by
  unfold processLine
  exact processIps_balanced err _ _ (by unfold balanced at *; simpa using h)

lemma processFile_balanced (err : List Char → Bool) :
    ∀ (lines : List (List Char)) (s : ScanState), balanced s.stats →
      balanced (processFile err s lines).1.stats
  | [], s, h => h
  | line :: rest, s, h => by
    simp only [processFile]
    exact processFile_balanced err rest _ (processLine_balanced err s line h)

/-- Claim C1: after any complete scan (every line processed to EOF), the
counters satisfy `unique_public_ips_stored + unique_private_ips_stored +
duplicate_ips_skipped = total_ips_found - within_file_duplicates`.  Note
this holds for every store-error oracle `err`: a failed store call is
counted in `duplicate_ips_skipped`, so the balance never breaks. -/
theorem stats_cross_check (err : List Char → Bool) (store : Store)
    (lines : List (List Char)) :
    (processFile err (initState store) lines).1.stats.unique_public_ips_stored
        + (processFile err (initState store) lines).1.stats.unique_private_ips_stored
        + (processFile err (initState store) lines).1.stats.duplicate_ips_skipped
      = (processFile err (initState store) lines).1.stats.total_ips_found
          - (processFile err (initState store) lines).1.stats.within_file_duplicates := by
  have h := processFile_balanced err lines (initState store) rfl
  unfold balanced at h
  omega

/-- Counterexample to claim C2: a single-line file whose only address
"8.8.8.8" has a failing store call (its first in-scan occurrence triggers
the one store call, which raises).  The claim says none of the three
outcome counters is incremented for that address, but the code's
`except Exception: return False` makes the caller increment
`duplicate_ips_skipped` to 1. -/
theorem storeerror_uncounted_counterexample :
    (processFile (fun ip => ip == "8.8.8.8".data)
        (initState { public_ips := [], private_ips := [] })
        ["req from 8.8.8.8".data]).2 = [ScanEvent.storeCall "8.8.8.8".data] ∧
    (processFile (fun ip => ip == "8.8.8.8".data)
        (initState { public_ips := [], private_ips := [] })
        ["req from 8.8.8.8".data]).1.stats.duplicate_ips_skipped = 1 ∧
    (processFile (fun ip => ip == "8.8.8.8".data)
        (initState { public_ips := [], private_ips := [] })
        ["req from 8.8.8.8".data]).1.stats.unique_public_ips_stored = 0 ∧
    (processFile (fun ip => ip == "8.8.8.8".data)
        (initState { public_ips := [], private_ips := [] })
        ["req from 8.8.8.8".data]).1.stats.unique_private_ips_stored = 0 ∧
    (processFile (fun ip => ip == "8.8.8.8".data)
        (initState { public_ips := [], private_ips := [] })
        ["req from 8.8.8.8".data]).1.stats.total_ips_found = 1 := by
  decide

/-- Claim C2 as amended: when the first in-scan occurrence of an address
triggers a store call that fails, the scan continues with the remaining
addresses and the store is unchanged, but the failure IS counted: the
false return of `store_ip_in_mongodb` increments
`duplicate_ips_skipped`, while the two "new stored" counters stay put. -/
theorem storeerror_counted_as_duplicate (err : List Char → Bool) (s : ScanState)
    (ip : List Char) (rest : List (List Char))
    (h1 : err ip = true) (h2 : ip ∉ s.processed_ips) :
    (processIp err s ip).1.stats.unique_public_ips_stored
        = s.stats.unique_public_ips_stored ∧
    (processIp err s ip).1.stats.unique_private_ips_stored
        = s.stats.unique_private_ips_stored ∧
    (processIp err s ip).1.stats.duplicate_ips_skipped
        = s.stats.duplicate_ips_skipped + 1 ∧
    (processIp err s ip).1.store = s.store ∧
    (processIp err s ip).2 = [ScanEvent.storeCall ip] ∧
    (processIps err s (ip :: rest)).1 = (processIps err (processIp err s ip).1 rest).1 := by
  refine ⟨?_, ?_, ?_, ?_, ?_, ?_⟩ <;>
    simp [processIp, processIps, store_ip_in_mongodb, h1, h2]

theorem storeerror_counted_as_duplicate_witness :
    ((fun ip => ip == "8.8.8.8".data) "8.8.8.8".data = true ∧
      "8.8.8.8".data ∉ (initState { public_ips := [], private_ips := [] }).processed_ips) ∧
    ((processIp (fun ip => ip == "8.8.8.8".data)
        (initState { public_ips := [], private_ips := [] })
        "8.8.8.8".data).1.stats.unique_public_ips_stored
        = (initState { public_ips := [], private_ips := [] }).stats.unique_public_ips_stored ∧
      (processIp (fun ip => ip == "8.8.8.8".data)
        (initState { public_ips := [], private_ips := [] })
        "8.8.8.8".data).1.stats.unique_private_ips_stored
        = (initState { public_ips := [], private_ips := [] }).stats.unique_private_ips_stored ∧
      (processIp (fun ip => ip == "8.8.8.8".data)
        (initState { public_ips := [], private_ips := [] })
        "8.8.8.8".data).1.stats.duplicate_ips_skipped
        = (initState { public_ips := [], private_ips := [] }).stats.duplicate_ips_skipped + 1 ∧
      (processIp (fun ip => ip == "8.8.8.8".data)
        (initState { public_ips := [], private_ips := [] })
        "8.8.8.8".data).1.store = (initState { public_ips := [], private_ips := [] }).store ∧
      (processIp (fun ip => ip == "8.8.8.8".data)
        (initState { public_ips := [], private_ips := [] })
        "8.8.8.8".data).2 = [ScanEvent.storeCall "8.8.8.8".data] ∧
      (processIps (fun ip => ip == "8.8.8.8".data)
        (initState { public_ips := [], private_ips := [] })
        ("8.8.8.8".data :: [])).1 =
        (processIps (fun ip => ip == "8.8.8.8".data)
          (processIp (fun ip => ip == "8.8.8.8".data)
            (initState { public_ips := [], private_ips := [] }) "8.8.8.8".data).1 []).1) :=
  ⟨⟨by decide, by decide⟩,
    storeerror_counted_as_duplicate (fun ip => ip == "8.8.8.8".data)
      (initState { public_ips := [], private_ips := [] }) "8.8.8.8".data []
      (by decide) (by decide)⟩

/-- Number of store calls made for address `a` in an event trace. -/
def countStore (a : List Char) : List ScanEvent → Nat
  | [] => 0
  | ScanEvent.storeCall ip :: rest => (if ip = a then 1 else 0) + countStore a rest
  | ScanEvent.dupSkip _ :: rest => countStore a rest

/-- Number of `within_file_duplicates` increments made on account of
address `a` in an event trace. -/
def countDup (a : List Char) : List ScanEvent → Nat
  | [] => 0
  | ScanEvent.dupSkip ip :: rest => (if ip = a then 1 else 0) + countDup a rest
  | ScanEvent.storeCall _ :: rest => countDup a rest

/-- Recogniser for duplicate-skip events. -/
def isDupSkip : ScanEvent → Bool
  | ScanEvent.dupSkip _ => true
  | ScanEvent.storeCall _ => false

lemma countStore_append (a : List Char) (l1 l2 : List ScanEvent) :
    countStore a (l1 ++ l2) = countStore a l1 + countStore a l2 := by
  induction l1 with
  | nil => simp [countStore]
  | cons e rest ih => cases e <;> simp [countStore, ih, Nat.add_assoc]

lemma countDup_append (a : List Char) (l1 l2 : List ScanEvent) :
    countDup a (l1 ++ l2) = countDup a l1 + countDup a l2 := by
  induction l1 with
  | nil => simp [countDup]
  | cons e rest ih => cases e <;> simp [countDup, ih, Nat.add_assoc]

lemma processIp_mem (err : List Char → Bool) (s : ScanState) (ip : List Char) :
    (processIp err s ip).1.processed_ips =
      if ip ∈ s.processed_ips then s.processed_ips else ip :: s.processed_ips := by
  unfold processIp
  by_cases h : ip ∈ s.processed_ips <;> simp [h]

lemma processIp_evs (err : List Char → Bool) (s : ScanState) (ip : List Char) :
    (processIp err s ip).2 =
      if ip ∈ s.processed_ips then [ScanEvent.dupSkip ip] else [ScanEvent.storeCall ip] := by
  unfold processIp
  by_cases h : ip ∈ s.processed_ips <;> simp [h]

lemma processIps_mem (err : List Char → Bool) (a : List Char) :
    ∀ (ips : List (List Char)) (s : ScanState),
      a ∈ (processIps err s ips).1.processed_ips ↔ a ∈ s.processed_ips ∨ a ∈ ips
  | [], s => by simp [processIps]
  | ip :: rest, s => by
    have IH := processIps_mem err a rest (processIp err s ip).1
    rw [processIp_mem] at IH
    simp only [processIps]
    rw [IH]
    by_cases hmem : ip ∈ s.processed_ips
    · rw [if_pos hmem]
      constructor
      · tauto
      · rintro (h | h)
        · tauto
        · rw [List.mem_cons] at h
          rcases h with h | h
          · exact Or.inl (h ▸ hmem)
          · tauto
    · rw [if_neg hmem]
      simp only [List.mem_cons]
      tauto

lemma processIps_storeCount (err : List Char → Bool) (a : List Char) :
    ∀ (ips : List (List Char)) (s : ScanState),
      countStore a (processIps err s ips).2 =
        if a ∈ s.processed_ips then 0 else if a ∈ ips then 1 else 0
  | [], s => by simp [processIps, countStore]
  | ip :: rest, s => by
    have IH := processIps_storeCount err a rest (processIp err s ip).1
    rw [processIp_mem] at IH
    simp only [processIps, countStore_append, processIp_evs]
    by_cases hmem : ip ∈ s.processed_ips
    · rw [if_pos hmem] at IH ⊢
      rw [IH]
      by_cases has : a ∈ s.processed_ips
      · simp [countStore, has]
      · have hai : a ≠ ip := fun hh => has (hh ▸ hmem)
        simp [countStore, has, List.mem_cons, hai]
    · rw [if_neg hmem] at IH ⊢
      rw [IH]
      by_cases hai : a = ip
      · subst hai
        simp [countStore, hmem, List.mem_cons]
      · have hai' : ip ≠ a := fun hh => hai hh.symm
        simp only [countStore, List.mem_cons, if_neg hai']
        by_cases has : a ∈ s.processed_ips <;> simp [has, hai]

lemma processIps_dupCount (err : List Char → Bool) (a : List Char) :
    ∀ (ips : List (List Char)) (s : ScanState),
      countDup a (processIps err s ips).2 +
          (if a ∈ s.processed_ips then 0 else if a ∈ ips then 1 else 0) =
        ips.count a
  | [], s => by simp [processIps, countDup]
  | ip :: rest, s => by
    have IH := processIps_dupCount err a rest (processIp err s ip).1
    rw [processIp_mem] at IH
    have hcount : (ip :: rest).count a = rest.count a + (if a = ip then 1 else 0) := by
      rw [List.count_cons]
      by_cases hai : a = ip
      · subst hai
        simp
      · have hai2 : ¬ ip = a := fun hh => hai hh.symm
        simp [hai, hai2]
    simp only [processIps, countDup_append, processIp_evs, hcount]
    by_cases hmem : ip ∈ s.processed_ips
    · simp only [if_pos hmem] at IH ⊢
      by_cases hai : a = ip
      · subst hai
        simp only [countDup, if_pos rfl, if_pos hmem] at IH ⊢
        omega
      · have hai2 : ¬ ip = a := fun hh => hai hh.symm
        have hmc : (a ∈ ip :: rest) ↔ (a ∈ rest) := by simp [List.mem_cons, hai]
        simp only [countDup, if_neg hai2, if_neg hai, hmc] at IH ⊢
        omega
    · simp only [if_neg hmem] at IH ⊢
      by_cases hai : a = ip
      · subst hai
        have hself : a ∈ a :: s.processed_ips := List.mem_cons_self a s.processed_ips
        simp only [if_pos hself] at IH
        have hself2 : a ∈ a :: rest := List.mem_cons_self a rest
        simp only [countDup, if_neg hmem] at IH ⊢
        simp [hself2] at IH ⊢
        omega
      · have hai2 : ¬ ip = a := fun hh => hai hh.symm
        have hmc : (a ∈ ip :: s.processed_ips) ↔ (a ∈ s.processed_ips) := by
          simp [List.mem_cons, hai]
        have hmc2 : (a ∈ ip :: rest) ↔ (a ∈ rest) := by simp [List.mem_cons, hai]
        simp only [hmc] at IH
        simp only [countDup, if_neg hai2, if_neg hai, hmc2] at IH ⊢
        omega

lemma allIps_cons (line : List Char) (rest : List (List Char)) :
    allIps (line :: rest) = extract_ips_from_line (pyStrip line) ++ allIps rest := by
  simp [allIps]

lemma processLine_def (err : List Char → Bool) (s : ScanState) (line : List Char) :
    processLine err s line =
      processIps err
        { s with stats :=
            { s.stats with total_lines_processed := s.stats.total_lines_processed + 1 } }
        (extract_ips_from_line (pyStrip line)) := rfl

lemma processLine_mem (err : List Char → Bool) (s : ScanState) (line a : List Char) :
    a ∈ (processLine err s line).1.processed_ips ↔
      a ∈ s.processed_ips ∨ a ∈ extract_ips_from_line (pyStrip line) := by
  rw [processLine_def]
  simpa using processIps_mem err a (extract_ips_from_line (pyStrip line)) _

lemma processLine_storeCount (err : List Char → Bool) (s : ScanState) (line a : List Char) :
    countStore a (processLine err s line).2 =
      if a ∈ s.processed_ips then 0
      else if a ∈ extract_ips_from_line (pyStrip line) then 1 else 0 := by
  rw [processLine_def]
  simpa using processIps_storeCount err a (extract_ips_from_line (pyStrip line)) _

lemma processLine_dupCount (err : List Char → Bool) (s : ScanState) (line a : List Char) :
    countDup a (processLine err s line).2 +
        (if a ∈ s.processed_ips then 0
         else if a ∈ extract_ips_from_line (pyStrip line) then 1 else 0) =
      (extract_ips_from_line (pyStrip line)).count a := by
  rw [processLine_def]
  simpa using processIps_dupCount err a (extract_ips_from_line (pyStrip line)) _

lemma processFile_mem (err : List Char → Bool) (a : List Char) :
    ∀ (lines : List (List Char)) (s : ScanState),
      a ∈ (processFile err s lines).1.processed_ips ↔
        a ∈ s.processed_ips ∨ a ∈ allIps lines
  | [], s => by simp [processFile, allIps]
  | line :: rest, s => by
    have IH := processFile_mem err a rest (processLine err s line).1
    simp only [processLine_mem] at IH
    simp only [processFile, allIps_cons, List.mem_append]
    rw [IH]
    tauto

lemma processFile_storeCount (err : List Char → Bool) (a : List Char) :
    ∀ (lines : List (List Char)) (s : ScanState),
      countStore a (processFile err s lines).2 =
        if a ∈ s.processed_ips then 0 else if a ∈ allIps lines then 1 else 0
  | [], s => by simp [processFile, allIps, countStore]
  | line :: rest, s => by
    have IH := processFile_storeCount err a rest (processLine err s line).1
    simp only [processLine_mem] at IH
    have HL := processLine_storeCount err s line a
    simp only [processFile, countStore_append, allIps_cons, List.mem_append, HL, IH]
    by_cases has : a ∈ s.processed_ips <;>
      by_cases hal : a ∈ extract_ips_from_line (pyStrip line) <;>
      by_cases har : a ∈ allIps rest <;>
      simp_all

lemma processFile_dupCount (err : List Char → Bool) (a : List Char) :
    ∀ (lines : List (List Char)) (s : ScanState),
      countDup a (processFile err s lines).2 +
          (if a ∈ s.processed_ips then 0 else if a ∈ allIps lines then 1 else 0) =
        (allIps lines).count a
  | [], s => by simp [processFile, allIps, countDup]
  | line :: rest, s => by
    have IH := processFile_dupCount err a rest (processLine err s line).1
    simp only [processLine_mem] at IH
    have HL := processLine_dupCount err s line a
    simp only [processFile, countDup_append, allIps_cons, List.mem_append,
      List.count_append]
    by_cases has : a ∈ s.processed_ips <;>
      by_cases hal : a ∈ extract_ips_from_line (pyStrip line) <;>
      by_cases har : a ∈ allIps rest <;>
      simp_all <;>
      omega

lemma processIp_within (err : List Char → Bool) (s : ScanState) (ip : List Char) :
    (processIp err s ip).1.stats.within_file_duplicates =
      s.stats.within_file_duplicates + (processIp err s ip).2.countP isDupSkip := by
  unfold processIp
  by_cases h : ip ∈ s.processed_ips
  · simp [h, isDupSkip]
  · simp only [h]
    simp only [if_false, Bool.false_eq_true, ite_false, if_neg, reduceIte]
    split_ifs <;> simp [isDupSkip]

lemma processIps_within (err : List Char → Bool) :
    ∀ (ips : List (List Char)) (s : ScanState),
      (processIps err s ips).1.stats.within_file_duplicates =
        s.stats.within_file_duplicates + (processIps err s ips).2.countP isDupSkip
  | [], s => by simp [processIps]
  | ip :: rest, s => by
    have IH := processIps_within err rest (processIp err s ip).1
    have h1 := processIp_within err s ip
    simp only [processIps, List.countP_append]
    omega

lemma processFile_within (err : List Char → Bool) :
    ∀ (lines : List (List Char)) (s : ScanState),
      (processFile err s lines).1.stats.within_file_duplicates =
        s.stats.within_file_duplicates + (processFile err s lines).2.countP isDupSkip
  | [], s => by simp [processFile]
  | line :: rest, s => by
    have IH := processFile_within err rest (processLine err s line).1
    have h1 := processIps_within err (extract_ips_from_line (pyStrip line))
      { s with stats :=
          { s.stats with total_lines_processed := s.stats.total_lines_processed + 1 } }
    rw [← processLine_def] at h1
    simp only [ScanStats.within_file_duplicates] at h1
    simp only [processFile, List.countP_append]
    simp only [processLine_def] at *
    omega

/-- Claim C5: for every address occurring `N ≥ 1` times among the valid
addresses extracted in one file scan, exactly one store call is made for
it and `within_file_duplicates` is incremented exactly `N - 1` times on
account of it (the `dupSkip` events, which by `processIp` are exactly the
increments of that counter); the total counter equals the total number of
`dupSkip` events, so duplicate occurrences never touch the store. -/
theorem within_file_dedup (err : List Char → Bool) (store : Store)
    (lines : List (List Char)) (a : List Char) (h : a ∈ allIps lines) :
    countStore a (processFile err (initState store) lines).2 = 1 ∧
    countDup a (processFile err (initState store) lines).2 = (allIps lines).count a - 1 ∧
    (processFile err (initState store) lines).1.stats.within_file_duplicates =
      (processFile err (initState store) lines).2.countP isDupSkip := by
  have H1 := processFile_storeCount err a lines (initState store)
  have H2 := processFile_dupCount err a lines (initState store)
  have HW := processFile_within err lines (initState store)
  have hnil : a ∉ (initState store).processed_ips := List.not_mem_nil a
  rw [if_neg hnil, if_pos h] at H1 H2
  refine ⟨H1, by omega, by simpa [initState] using HW⟩

theorem within_file_dedup_witness :
    "1.2.3.4".data ∈ allIps ["a 1.2.3.4 b 5.6.7.8 c 1.2.3.4".data] ∧
    (countStore "1.2.3.4".data
        (processFile (fun _ => false) (initState { public_ips := [], private_ips := [] })
          ["a 1.2.3.4 b 5.6.7.8 c 1.2.3.4".data]).2 = 1 ∧
      countDup "1.2.3.4".data
        (processFile (fun _ => false) (initState { public_ips := [], private_ips := [] })
          ["a 1.2.3.4 b 5.6.7.8 c 1.2.3.4".data]).2 =
        (allIps ["a 1.2.3.4 b 5.6.7.8 c 1.2.3.4".data]).count "1.2.3.4".data - 1 ∧
      (processFile (fun _ => false) (initState { public_ips := [], private_ips := [] })
          ["a 1.2.3.4 b 5.6.7.8 c 1.2.3.4".data]).1.stats.within_file_duplicates =
        (processFile (fun _ => false) (initState { public_ips := [], private_ips := [] })
          ["a 1.2.3.4 b 5.6.7.8 c 1.2.3.4".data]).2.countP isDupSkip) :=
  ⟨by decide,
    within_file_dedup (fun _ => false) { public_ips := [], private_ips := [] }
      ["a 1.2.3.4 b 5.6.7.8 c 1.2.3.4".data] "1.2.3.4".data (by decide)⟩

/-- Counterexample to claim C6: a mid-scan read error (exception after the
first of two lines) does exit nonzero, but the accumulated statistics are
NOT reported: `print_statistics` is only called in the `if success:`
branch of `main`, and `process_log_file` returned `False`. -/
theorem readerror_stats_unreported_counterexample :
    (mainRun true (fun _ => false) { public_ips := [], private_ips := [] } true
        ["a 1.2.3.4".data, "b 5.6.7.8".data] (some 1) initAttrProcessedIps).exitCode = 1 ∧
    (mainRun true (fun _ => false) { public_ips := [], private_ips := [] } true
        ["a 1.2.3.4".data, "b 5.6.7.8".data] (some 1)
        initAttrProcessedIps).statsReported = false ∧
    (mainRun true (fun _ => false) { public_ips := [], private_ips := [] } true
        ["a 1.2.3.4".data, "b 5.6.7.8".data] (some 1)
        initAttrProcessedIps).finalStats.total_lines_processed = 1 := by
  decide

/-- Claim C6 as amended: on a mid-scan read error the run terminates with
exit code 1 and the statistics accumulated up to the failure point are
retained on the processor object, but they are NOT reported before exit
(`statsReported = false`): the reporting call is skipped on the failure
path. -/
theorem readerror_terminates_unreported (err : List Char → Bool) (store : Store)
    (lines : List (List Char)) (k : Nat) (attr : Option (List (List Char))) :
    (mainRun true err store true lines (some k) attr).exitCode = 1 ∧
    (mainRun true err store true lines (some k) attr).statsReported = false ∧
    (mainRun true err store true lines (some k) attr).finalStats =
      (processFile err (initState store) (lines.take k)).1.stats := by
  simp [mainRun, process_log_file_run]

/-- Claim C8: the exit code is 0 exactly on a fully successful scan:
the store connected, the log file existed, and no exception interrupted
the line loop; it is 1 (nonzero) in every other case — store unreachable
at start, missing log file, or an error mid-scan. -/
theorem exit_code_spec (connectOk : Bool) (err : List Char → Bool) (store : Store)
    (fileExists : Bool) (lines : List (List Char)) (failAfter : Option Nat)
    (attr : Option (List (List Char))) :
    ((mainRun connectOk err store fileExists lines failAfter attr).exitCode = 0 ↔
      (connectOk = true ∧ fileExists = true ∧ failAfter = none)) ∧
    ((mainRun connectOk err store fileExists lines failAfter attr).exitCode = 0 ∨
      (mainRun connectOk err store fileExists lines failAfter attr).exitCode = 1) := by
  cases connectOk <;> cases fileExists <;> cases failAfter <;>
    simp [mainRun, process_log_file_run]

/-- Claim C10: the reported "Unique IPs from file" statistic is 0 for
every scan of every input file: `print_statistics` reads the attribute
`self.processed_ips`, which `__init__` never creates and
`process_log_file` never assigns (its `processed_ips` is a local
variable), so `getattr(self, 'processed_ips', set())` yields the empty
set on every run that reports statistics. -/
theorem unique_ips_from_file_always_zero (connectOk : Bool) (err : List Char → Bool)
    (store : Store) (fileExists : Bool) (lines : List (List Char))
    (failAfter : Option Nat)
    (h : (mainRun connectOk err store fileExists lines failAfter
        initAttrProcessedIps).statsReported = true) :
    (mainRun connectOk err store fileExists lines failAfter
        initAttrProcessedIps).reportedUniqueIps = some 0 := by
  unfold mainRun at h ⊢
  by_cases h1 : connectOk = true
  · simp only [if_pos h1] at h ⊢
    by_cases h2 : (process_log_file_run err (initState store) fileExists lines failAfter).1 = true
    · simp [h2, uniqueIpsFromFileReport, initAttrProcessedIps]
    · simp [h2] at h
  · simp [h1] at h

theorem unique_ips_from_file_always_zero_witness :
    (mainRun true (fun _ => false) { public_ips := [], private_ips := [] } true
        ["a 1.2.3.4".data] none initAttrProcessedIps).statsReported = true ∧
    (mainRun true (fun _ => false) { public_ips := [], private_ips := [] } true
        ["a 1.2.3.4".data] none initAttrProcessedIps).reportedUniqueIps = some 0 :=
  ⟨by decide,
    unique_ips_from_file_always_zero true (fun _ => false)
      { public_ips := [], private_ips := [] } true ["a 1.2.3.4".data] none (by decide)⟩

end LogProcessor
